import Mathlib

/-! Verification of the arangojs connection/request pipeline
    (src/build/connection.js, src/build/lib/normalizeUrl.js, error.js).
    The JavaScript source is shallowly embedded: machine state is passed
    explicitly, the asynchronous transport callback becomes an explicit
    completion step on a list of in-flight tasks, and JS values/errors are
    modelled by small inductive types. -/

namespace ArangojsConn

/-! JS error model.  `error.js` detects a Node `SystemError` structurally:
    `Object.getPrototypeOf(err) === Error.prototype` and own properties
    `code`, `errno`, `syscall`.  We record those facts plus the two string
    fields the scheduler reads (`err.syscall`, `err.code`). -/

structure JsErr where
  protoIsError : Bool
  hasCode : Bool
  hasErrno : Bool
  hasSyscall : Bool
  syscall : String
  code : String
deriving DecidableEq

/-- error.js `isSystemError` (structural duck-typing check). -/
def isSystemError (e : JsErr) : Bool :=
  e.protoIsError && e.hasCode && e.hasErrno && e.hasSyscall

/-- The retryable error class tested in `_runQueue`:
    `isSystemError(err) && err.syscall === "connect" && err.code === "ECONNREFUSED"`. -/
def isConnRefused (e : JsErr) : Bool :=
  isSystemError e && e.syscall == "connect" && e.code == "ECONNREFUSED"

/-! JS value model for parsed JSON response bodies.  Numbers are modelled as
    integers; no claim depends on floating-point behaviour. -/

inductive JsValue where
  | nullV
  | undefinedV
  | boolV (b : Bool)
  | numV (n : Int)
  | strV (s : String)
  | obj (fields : List (String × JsValue))
  | arr (elems : List JsValue)

/-- JS truthiness of a value (used by `body && ...`). -/
def truthy : JsValue → Bool
  | .nullV => false
  | .undefinedV => false
  | .boolV b => b
  | .numV n => n != 0
  | .strV s => s != ""
  | .obj _ => true
  | .arr _ => true

/-- JS `hasOwnProperty` for our value model: only plain objects carry the
    (string-keyed) own properties we care about; primitives, null/undefined
    and JSON arrays do not own keys like "error". -/
def hasOwnProp : JsValue → String → Bool
  | .obj fields, key => fields.any (fun p => p.1 == key)
  | _, _ => false

/-- JS property read `v[key]` (first binding wins; `undefined` if absent). -/
def getProp (v : JsValue) (key : String) : JsValue :=
  match v with
  | .obj fields =>
    match fields.find? (fun p => p.1 == key) with
    | some p => p.2
    | none => .undefinedV
  | _ => .undefinedV

/-- error.js `isArangoErrorResponse`: body is truthy and owns all of
    `error`, `code`, `errorMessage`, `errorNum`. -/
def isArangoErrorResponse (body : JsValue) : Bool :=
  truthy body && hasOwnProp body "error" && hasOwnProp body "code"
    && hasOwnProp body "errorMessage" && hasOwnProp body "errorNum"

/-! URL normalization, `src/build/lib/normalizeUrl.js`.
    The two regexes are embedded on character lists.  A JS regex `.` matches
    any character except a line terminator, and `.+` is greedy, so a match
    captures the longest run of non-terminator characters (and the rewrite
    drops whatever follows that run). -/

/-- Line terminators excluded by the JS regex `.`. -/
def isLineTerm (c : Char) : Bool :=
  c = '\n' || c = '\r' || c = '\u2028' || c = '\u2029'

/-- The (greedy) run matched by `.+` starting at `cs` (empty means no match). -/
def dotRun (cs : List Char) : List Char :=
  cs.takeWhile (fun c => !isLineTerm c)

/-- Rewrite by `/^(tcp|ssl|tls)((?::|\+).+)/`:
    `url = (raw[1] === "tcp" ? "http" : "https") + raw[2]`. -/
def schemeAlias (cs : List Char) : List Char :=
  match cs with
  | c1 :: c2 :: c3 :: c4 :: rest =>
    if ([c1, c2, c3] = ['t', 'c', 'p'] ∨ [c1, c2, c3] = ['s', 's', 'l']
          ∨ [c1, c2, c3] = ['t', 'l', 's'])
        ∧ (c4 = ':' ∨ c4 = '+') ∧ dotRun rest ≠ [] then
      (if [c1, c2, c3] = ['t', 'c', 'p'] then ['h', 't', 't', 'p']
       else ['h', 't', 't', 'p', 's']) ++ c4 :: dotRun rest
    else c1 :: c2 :: c3 :: c4 :: rest
  | _ => cs

/-- Strip a literal from the front of `cs` (regex literal characters). -/
def dropLit : List Char → List Char → Option (List Char)
  | [], cs => some cs
  | _ :: _, [] => none
  | l :: ls, c :: cs => if c = l then dropLit ls cs else none

/-- Match `unix:\/\/(\/.+)` at the front; returns the capture group. -/
def unixTail (cs : List Char) : Option (List Char) :=
  match dropLit "unix://".data cs with
  | none => none
  | some rest =>
    match rest with
    | '/' :: tail => if dotRun tail ≠ [] then some ('/' :: dotRun tail) else none
    | _ => none

/-- Rewrite by `/^(?:(https?)\+)?unix:\/\/(\/.+)/`:
    `url = `${unix[1] || "http"}://unix:${unix[2]}``.
    The three literal alternatives (`https+`, `http+`, none) have mutually
    exclusive prefixes, so trying them in greedy order is faithful. -/
def unixRewrite (cs : List Char) : Option (List Char) :=
  match dropLit "https+".data cs with
  | some rest => (unixTail rest).map (fun g => "https://unix:".data ++ g)
  | none =>
    match dropLit "http+".data cs with
    | some rest => (unixTail rest).map (fun g => "http://unix:".data ++ g)
    | none => (unixTail cs).map (fun g => "http://unix:".data ++ g)

/-- `normalizeUrl` from `src/build/lib/normalizeUrl.js`. -/
def normalizeUrl (url : String) : String :=
  let cs := schemeAlias url.data
  match unixRewrite cs with
  | some out => String.mk out
  | none => String.mk cs

/-! First-index lookup mirroring JS `Array.prototype.indexOf`.  JS returns
    `-1` when absent; we return the list length as the "absent" sentinel, so
    the JS test `indexOf(url) === -1` becomes `jsIndexOf l u = l.length`. -/

def jsIndexOf : List String → String → Nat
  | [], _ => 0
  | x :: xs, u => if x = u then 0 else jsIndexOf xs u + 1

/-! Connection state (the fields of `class Connection` that `_runQueue`,
    `addToHostList` and the completion callback read or write).
    `_hosts` is a list of transport functions created one per new URL; only
    its length matters to the scheduler logic, so we track `hostsLen`
    (`this._hosts.length`), with `urls` for `this._urls`. -/

inductive LoadBalancingStrategy where
  | NONE
  | ONE_RANDOM
  | ROUND_ROBIN
deriving DecidableEq

/-- One queued/in-flight logical request (the `task` object built in
    `request`): `retries`, `host` (the optional pin, `task.host`),
    `allowDirtyRead`; `id` identifies the caller's promise
    (its `resolve`/`reject` pair). -/
structure Task where
  id : Nat
  retries : Nat
  host : Option Nat
  allowDirtyRead : Bool
deriving DecidableEq

/-- JS `!task.host` is a falsiness test: it holds when the pin is `undefined`
    but also when the pin is the host index `0`. -/
def Task.hostFalsy (t : Task) : Bool :=
  t.host == none || t.host == some 0

structure ConnState where
  activeTasks : Nat
  maxTasks : Nat
  queue : List Task
  urls : List String
  hostsLen : Nat
  activeHost : Nat
  activeDirtyHost : Nat
  loadBalancingStrategy : LoadBalancingStrategy
  shouldRetry : Bool
  maxRetries : Nat
deriving DecidableEq

/-- `this._useFailOver`, set once in the constructor:
    `this._loadBalancingStrategy !== "ROUND_ROBIN"` (line 94) and never
    mutated, so we inline the defining expression. -/
def ConnState.useFailOver (c : ConnState) : Bool :=
  c.loadBalancingStrategy != .ROUND_ROBIN

/-- The retry budget of line 163: `this._maxRetries || this._hosts.length - 1`
    (`_maxRetries` is `0` both when unset and when retries are disabled). -/
def retryBudget (c : ConnState) : Nat :=
  if c.maxRetries = 0 then c.hostsLen - 1 else c.maxRetries

/-- `Connection.addToHostList` (lines 240-246): normalize, filter out URLs
    already present (JS `indexOf === -1`), append the remaining URLs and one
    fresh transport each, return the (first) index of every normalized input
    URL in the updated pool. -/
def addToHostList (c : ConnState) (urls : List String) : ConnState × List Nat :=
  let cleanUrls := urls.map normalizeUrl
  let newUrls := cleanUrls.filter (fun url => jsIndexOf c.urls url = c.urls.length)
  let urls2 := c.urls ++ newUrls
  ({ c with urls := urls2, hostsLen := c.hostsLen + newUrls.length },
   cleanUrls.map (fun url => jsIndexOf urls2 url))

/-! The dispatch half of `_runQueue` (lines 135-151).  The function pops at
    most one task per invocation; it is re-invoked after every enqueue and at
    the end of every completion callback. -/

/-- The host index chosen for a task (lines 139-147): the pin verbatim if
    set (`task.host !== undefined`), else the dirty cursor for dirty reads,
    else the active-host cursor — all read before any cursor advances. -/
def dispatchHost (c : ConnState) (t : Task) : Nat :=
  match t.host with
  | some h => h
  | none => if t.allowDirtyRead then c.activeDirtyHost else c.activeHost

/-- Cursor mutation at dispatch: a dirty read advances the dirty cursor, a
    round-robin non-dirty non-pinned dispatch advances the active cursor
    (lines 143-150).  (The dirty branch also sets the
    `x-arango-allow-dirty-read` request header; no claim inspects it.) -/
def cursorUpdate (c : ConnState) (t : Task) : ConnState :=
  if t.host = none ∧ t.allowDirtyRead = true then
    { c with activeDirtyHost := (c.activeDirtyHost + 1) % c.hostsLen }
  else if t.host = none ∧ t.allowDirtyRead = false
      ∧ c.loadBalancingStrategy = .ROUND_ROBIN then
    { c with activeHost := (c.activeHost + 1) % c.hostsLen }
  else c

/-- An in-flight transport invocation: the completion callback's captured
    `task` and `host`. -/
structure Flight where
  task : Task
  host : Nat
deriving DecidableEq

/-- Dispatch step of `_runQueue`: no-op when the queue is empty or
    `_activeTasks >= _maxTasks`; otherwise shift the head task, pick its
    host, update cursors, bump the in-flight counter and start the transport
    (returned as a new `Flight`). -/
def runQueue (c : ConnState) : ConnState × Option Flight :=
  match c.queue with
  | [] => (c, none)
  | task :: rest =>
    if c.maxTasks ≤ c.activeTasks then (c, none)
    else
      let c1 := cursorUpdate c task
      ({ c1 with queue := rest, activeTasks := c1.activeTasks + 1 },
       some ⟨task, dispatchHost c task⟩)

/-! The completion callback (lines 152-195).  The transport reports either a
    JS error or a raw response; at the scheduler level only the status code
    and the `x-arango-endpoint` header are inspected. -/

structure Response where
  statusCode : Nat
  leaderEndpoint : Option String
deriving DecidableEq

/-- JS truthiness of `response.headers["x-arango-endpoint"]` (absent or the
    empty string is falsy). -/
def headerTruthy : Option String → Bool
  | none => false
  | some s => s != ""

/-- A caller-visible outcome: the callback invoked the task's `reject` or its
    `resolve` (the latter tagging `response.arangojsHostId = host`). -/
inductive Event where
  | rejected (id : Nat) (e : JsErr)
  | resolved (id : Nat) (hostId : Nat) (res : Response)
deriving DecidableEq

def Event.taskId : Event → Nat
  | .rejected id _ => id
  | .resolved id _ _ => id

/-- Failover stepping (lines 154-160): advance the active cursor when the
    failed task was not a dirty read, more than one host is known, the
    cursor still equals the host that served the task, and `_useFailOver`. -/
def failoverUpdate (c : ConnState) (t : Task) (host : Nat) : ConnState :=
  if !t.allowDirtyRead && decide (1 < c.hostsLen) && (c.activeHost == host)
      && c.useFailOver then
    { c with activeHost := (c.activeHost + 1) % c.hostsLen }
  else c

/-- The retry test of lines 161-166: `!task.host && this._shouldRetry &&
    task.retries < (this._maxRetries || this._hosts.length - 1) &&
    isSystemError(err) && err.syscall === "connect" &&
    err.code === "ECONNREFUSED"`. -/
def retryDecision (c : ConnState) (t : Task) (e : JsErr) : Bool :=
  t.hostFalsy && c.shouldRetry && decide (t.retries < retryBudget c)
    && isSystemError e && (e.syscall == "connect") && (e.code == "ECONNREFUSED")

/-- Error path of the completion callback (lines 153-175): decrement the
    counter, advance the active cursor on failover, then either re-enqueue
    the task with `retries + 1` (connection-refused retry) or reject. -/
def completeErr (c : ConnState) (t : Task) (host : Nat) (e : JsErr) :
    ConnState × Option Event :=
  let c2 := failoverUpdate { c with activeTasks := c.activeTasks - 1 } t host
  if retryDecision c2 t e then
    ({ c2 with queue := c2.queue ++ [{ t with retries := t.retries + 1 }] }, none)
  else
    (c2, some (.rejected t.id e))

/-- The leader-redirect test of lines 179-180: status `503` and a truthy
    `x-arango-endpoint` header. -/
def leaderRedirect (res : Response) : Bool :=
  (res.statusCode == 503) && headerTruthy res.leaderEndpoint

/-- Response path of the completion callback (lines 177-193): decrement the
    counter; on `503` with a truthy leader-endpoint header add the endpoint
    to the pool, pin the task to its index, move the active cursor there if
    it still points at the answering host, and re-enqueue; otherwise resolve. -/
def completeRes (c : ConnState) (t : Task) (host : Nat) (res : Response) :
    ConnState × Option Event :=
  let c1 := { c with activeTasks := c.activeTasks - 1 }
  if leaderRedirect res then
    let url := res.leaderEndpoint.getD ""
    let p := addToHostList c1 [url]
    let index := p.2.headD 0
    let t2 := { t with host := some index }
    let c2 := if p.1.activeHost == host then { p.1 with activeHost := index } else p.1
    ({ c2 with queue := c2.queue ++ [t2] }, none)
  else
    (c1, some (.resolved t.id host res))

/-! Whole-scheduler small-step model.  A `SchedState` adds the set of
    pending transport callbacks (`inflight`, in start order) and the log of
    caller-visible outcomes (`events`) to the connection state.  The
    environment chooses which in-flight callback fires next and with what
    result; the scheduler code itself is deterministic. -/

structure SchedState where
  conn : ConnState
  inflight : List Flight
  events : List Event
deriving DecidableEq

/-- Run the dispatch half of `_runQueue` once, recording a started transport
    invocation as a new in-flight callback. -/
def stepRunQueue (s : SchedState) : SchedState :=
  match runQueue s.conn with
  | (c, some f) => { s with conn := c, inflight := s.inflight ++ [f] }
  | (c, none) => { s with conn := c }

/-- `Connection.request` (lines 306-397) as seen by the scheduler: build a
    task with `retries: 0` and the caller's pin / dirty-read flag, push it at
    the queue tail, and trigger one `_runQueue` pass. -/
def doRequest (s : SchedState) (id : Nat) (host : Option Nat)
    (allowDirtyRead : Bool) : SchedState :=
  let task : Task :=
    { id := id, retries := 0, host := host, allowDirtyRead := allowDirtyRead }
  stepRunQueue { s with conn := { s.conn with queue := s.conn.queue ++ [task] } }

/-- What a transport invocation reports to its callback. -/
inductive CbResult where
  | err (e : JsErr)
  | ok (res : Response)
deriving DecidableEq

def applyCb (c : ConnState) (f : Flight) (r : CbResult) : ConnState × Option Event :=
  match r with
  | .err e => completeErr c f.task f.host e
  | .ok res => completeRes c f.task f.host res

/-- Fire the `i`-th in-flight callback with result `r`: run the completion
    callback (lines 152-195), log its caller-visible outcome if any, and end
    with the callback's final `this._runQueue()` call. -/
def doComplete (s : SchedState) (i : Nat) (r : CbResult) : SchedState :=
  match s.inflight[i]? with
  | none => s
  | some f =>
    let p := applyCb s.conn f r
    stepRunQueue
      { conn := p.1,
        inflight := s.inflight.eraseIdx i,
        events := match p.2 with
          | some e => s.events ++ [e]
          | none => s.events }

/-- Reachability: `Trace s0 ids s` means `s` arises from `s0` by some
    interleaving of `request` calls (whose task ids are collected in `ids`,
    in order) and transport completions. -/
inductive Trace : SchedState → List Nat → SchedState → Prop where
  | refl (s : SchedState) : Trace s [] s
  | request {s t : SchedState} {ids : List Nat} (id : Nat) (host : Option Nat)
      (dirty : Bool) :
      Trace s ids t → Trace s (ids ++ [id]) (doRequest t id host dirty)
  | complete {s t : SchedState} {ids : List Nat} (i : Nat) (r : CbResult) :
      Trace s ids t → Trace s ids (doComplete t i r)

/-- Iterate the dispatch step `k` times, collecting the host index targeted
    by each dispatched task (the uninterrupted special case of a run). -/
def dispatchMany : ConnState → Nat → ConnState × List Nat
  | c, 0 => (c, [])
  | c, k + 1 =>
    match runQueue c with
    | (c1, some f) =>
      let p := dispatchMany c1 k
      (p.1, f.host :: p.2)
    | (c1, none) => (c1, [])

/-- A scheduler step chosen by the environment: a new `request()` call or a
    transport completion (the two step kinds of `Trace`, as data, so that
    whole runs can be quantified over). -/
inductive StepLabel where
  | request (id : Nat) (host : Option Nat) (dirty : Bool)
  | complete (i : Nat) (r : CbResult)
deriving DecidableEq

/-- Apply one step. -/
def applyStep (s : SchedState) : StepLabel → SchedState
  | .request id host dirty => doRequest s id host dirty
  | .complete i r => doComplete s i r

/-- Run a list of steps in order. -/
def runSched : SchedState → List StepLabel → SchedState
  | s, [] => s
  | s, l :: ls => runSched (applyStep s l) ls

/-- The transport invocation started by a step's `_runQueue` pass, if any
    (see `dispatchOf_request` / `dispatchOf_complete` for the correspondence
    with the flight `applyStep` adds to the in-flight list). -/
def dispatchOf (s : SchedState) : StepLabel → Option Flight
  | .request id host dirty =>
    (runQueue { s.conn with
      queue := s.conn.queue ++
        [{ id := id, retries := 0, host := host, allowDirtyRead := dirty }] }).2
  | .complete i r =>
    match s.inflight[i]? with
    | none => none
    | some f => (runQueue (applyCb s.conn f r).1).2

/-- The dispatches a run performs, in order. -/
def dispatchesOf : SchedState → List StepLabel → List Flight
  | _, [] => []
  | s, l :: ls => (dispatchOf s l).toList ++ dispatchesOf (applyStep s l) ls

/-- A dispatch of a non-pinned, non-dirty-read task. -/
def Flight.plain (f : Flight) : Bool :=
  f.task.host == none && !f.task.allowDirtyRead

/-- The host indices targeted by a run's plain (non-pinned, non-dirty)
    dispatches, in order. -/
def plainHostsOf (s : SchedState) (ls : List StepLabel) : List Nat :=
  ((dispatchesOf s ls).filter Flight.plain).map Flight.host

/-- Steps that are not leader-redirect completions: only a redirect
    completion (status 503 + truthy endpoint header, lines 184-186) can
    rewrite the active cursor outside dispatching. -/
def redirectFree : StepLabel → Bool
  | .request _ _ _ => true
  | .complete _ (.err _) => true
  | .complete _ (.ok res) => !leaderRedirect res

/-! The classification performed by the `task.resolve` wrapper built in
    `Connection.request` (lines 342-380) once the body has been parsed
    (the JSON-parse stage of lines 343-366 is upstream of the claims and a
    parse failure rejects with the parse error before this classification). -/

structure RawResponse where
  statusCode : Nat
  body : JsValue

/-- The caller-visible result of the wrapper: an `ArangoError` rejection
    (fields read by the `ArangoError` constructor: `body.errorMessage`,
    `body.errorNum`, `body.code`), an `HttpError` rejection (its `code` is
    `response.statusCode || 500`), or a resolution with `transform(res)` /
    the raw response. -/
inductive TaskOutcome (α : Type) where
  | rejectedArango (errorNum : JsValue) (errorMessage : JsValue) (code : JsValue)
  | rejectedHttp (code : Nat)
  | resolvedRaw (res : RawResponse)
  | resolvedTransformed (v : α)

/-- Lines 367-379: envelope check first, then the `statusCode >= 400` check
    (with JS truthiness on `statusCode`), else resolve. -/
def taskResolve {α : Type} (res : RawResponse)
    (transform : Option (RawResponse → α)) : TaskOutcome α :=
  if isArangoErrorResponse res.body then
    .rejectedArango (getProp res.body "errorNum") (getProp res.body "errorMessage")
      (getProp res.body "code")
  else if res.statusCode ≠ 0 ∧ 400 ≤ res.statusCode then
    .rejectedHttp (if res.statusCode = 0 then 500 else res.statusCode)
  else
    match transform with
    | some f => .resolvedTransformed (f res)
    | none => .resolvedRaw res

/-! Counting helpers for the bookkeeping invariants. -/

/-- Occurrences of promise `id` in a task list. -/
def qCount (l : List Task) (id : Nat) : Nat :=
  l.countP (fun t => t.id == id)

/-- Occurrences of promise `id` among in-flight callbacks. -/
def fCount (l : List Flight) (id : Nat) : Nat :=
  l.countP (fun f => f.task.id == id)

/-- Caller-visible outcomes logged for promise `id`. -/
def eventCount (s : SchedState) (id : Nat) : Nat :=
  s.events.countP (fun e => e.taskId == id)

/-- Where promise `id` currently lives: queued + in-flight + completed. -/
def idCount (s : SchedState) (id : Nat) : Nat :=
  qCount s.conn.queue id + fCount s.inflight id + eventCount s id

/-- One optional event's contribution to `eventCount`. -/
def evCount1 : Option Event → Nat → Nat
  | none, _ => 0
  | some ev, id => if ev.taskId = id then 1 else 0

/-- The bookkeeping invariant tying the in-flight counter to the in-flight
    callbacks and to the concurrency bound. -/
def Inv (s : SchedState) : Prop :=
  s.conn.activeTasks = s.inflight.length ∧ s.conn.activeTasks ≤ s.conn.maxTasks

/-! Concrete states used to exercise the model on small inputs. -/

/-- A connection-refused Node system error. -/
def connRefusedErr : JsErr :=
  { protoIsError := true, hasCode := true, hasErrno := true, hasSyscall := true,
    syscall := "connect", code := "ECONNREFUSED" }

/-- A non-retryable transport error (connection reset during read). -/
def connResetErr : JsErr :=
  { protoIsError := true, hasCode := true, hasErrno := true, hasSyscall := true,
    syscall := "read", code := "ECONNRESET" }

/-- A non-dirty task without a host pin, as built by a plain `request()`. -/
def plainTask (id : Nat) : Task :=
  { id := id, retries := 0, host := none, allowDirtyRead := false }

/-- A task explicitly pinned to host index `0` (callers can pass `host: 0`). -/
def pinnedZeroTask : Task :=
  { id := 9, retries := 0, host := some 0, allowDirtyRead := false }

/-- Two hosts, strategy NONE, `maxRetries: 2`, idle. -/
def twoHostConn : ConnState :=
  { activeTasks := 0, maxTasks := 6, queue := [], urls := ["http://h0", "http://h1"],
    hostsLen := 2, activeHost := 0, activeDirtyHost := 0,
    loadBalancingStrategy := .NONE, shouldRetry := true, maxRetries := 2 }

/-- A single host, strategy NONE, `maxRetries: 2`, idle. -/
def oneHostConn : ConnState :=
  { activeTasks := 0, maxTasks := 6, queue := [], urls := ["http://h0"],
    hostsLen := 1, activeHost := 0, activeDirtyHost := 0,
    loadBalancingStrategy := .NONE, shouldRetry := true, maxRetries := 2 }

def oneHostStart : SchedState := { conn := oneHostConn, inflight := [], events := [] }

/-- Two hosts under ROUND_ROBIN, default retry config, idle. -/
def rrConn : ConnState :=
  { activeTasks := 0, maxTasks := 6, queue := [], urls := ["http://h0", "http://h1"],
    hostsLen := 2, activeHost := 0, activeDirtyHost := 0,
    loadBalancingStrategy := .ROUND_ROBIN, shouldRetry := true, maxRetries := 0 }

def rrStart : SchedState := { conn := rrConn, inflight := [], events := [] }

/-- Round-robin run with a leader redirect in the middle: dispatch task 1 and
    task 2, complete task 1 with `503` + leader endpoint `http://h1`, then
    dispatch task 3. -/
def rrRedirectRun : SchedState :=
  doRequest
    (doComplete (doRequest (doRequest rrStart 1 none false) 2 none false) 0
      (.ok { statusCode := 503, leaderEndpoint := some "http://h1" }))
    3 none false

/-- Three consecutive connection-refused completions of task 7 on the
    single-host connection with `maxRetries: 2`. -/
def retryRun (n : Nat) : SchedState :=
  Nat.rec (doRequest oneHostStart 7 none false)
    (fun _ s => doComplete s 0 (.err connRefusedErr)) n

/-- A dirty-read-eligible task without a host pin. -/
def dirtyTask (id : Nat) : Task :=
  { id := id, retries := 0, host := none, allowDirtyRead := true }

/-- The two-host connection with one dirty-read task queued. -/
def dirtyQueueConn : ConnState := { twoHostConn with queue := [dirtyTask 6] }

/-- The round-robin connection with three plain tasks queued. -/
def rrQueueConn : ConnState :=
  { rrConn with queue := [plainTask 1, plainTask 2, plainTask 3] }

/-! Helper lemmas: which fields each state transformer leaves untouched. -/

@[simp] theorem cursorUpdate_queue (c : ConnState) (t : Task) :
    (cursorUpdate c t).queue = c.queue := by
  unfold cursorUpdate
  split
  · rfl
  · split <;> rfl

@[simp] theorem cursorUpdate_activeTasks (c : ConnState) (t : Task) :
    (cursorUpdate c t).activeTasks = c.activeTasks := by
  unfold cursorUpdate
  split
  · rfl
  · split <;> rfl

@[simp] theorem cursorUpdate_maxTasks (c : ConnState) (t : Task) :
    (cursorUpdate c t).maxTasks = c.maxTasks := by
  unfold cursorUpdate
  split
  · rfl
  · split <;> rfl

@[simp] theorem cursorUpdate_hostsLen (c : ConnState) (t : Task) :
    (cursorUpdate c t).hostsLen = c.hostsLen := by
  unfold cursorUpdate
  split
  · rfl
  · split <;> rfl

@[simp] theorem cursorUpdate_strategy (c : ConnState) (t : Task) :
    (cursorUpdate c t).loadBalancingStrategy = c.loadBalancingStrategy := by
  unfold cursorUpdate
  split
  · rfl
  · split <;> rfl

@[simp] theorem failoverUpdate_queue (c : ConnState) (t : Task) (host : Nat) :
    (failoverUpdate c t host).queue = c.queue := by
  unfold failoverUpdate
  split <;> rfl

@[simp] theorem failoverUpdate_activeTasks (c : ConnState) (t : Task) (host : Nat) :
    (failoverUpdate c t host).activeTasks = c.activeTasks := by
  unfold failoverUpdate
  split <;> rfl

@[simp] theorem failoverUpdate_maxTasks (c : ConnState) (t : Task) (host : Nat) :
    (failoverUpdate c t host).maxTasks = c.maxTasks := by
  unfold failoverUpdate
  split <;> rfl

@[simp] theorem failoverUpdate_hostsLen (c : ConnState) (t : Task) (host : Nat) :
    (failoverUpdate c t host).hostsLen = c.hostsLen := by
  unfold failoverUpdate
  split <;> rfl

@[simp] theorem failoverUpdate_shouldRetry (c : ConnState) (t : Task) (host : Nat) :
    (failoverUpdate c t host).shouldRetry = c.shouldRetry := by
  unfold failoverUpdate
  split <;> rfl

@[simp] theorem failoverUpdate_maxRetries (c : ConnState) (t : Task) (host : Nat) :
    (failoverUpdate c t host).maxRetries = c.maxRetries := by
  unfold failoverUpdate
  split <;> rfl

@[simp] theorem retryBudget_failoverUpdate (c : ConnState) (t : Task) (host : Nat) :
    retryBudget (failoverUpdate c t host) = retryBudget c := by
  unfold retryBudget
  simp

@[simp] theorem addToHostList_queue (c : ConnState) (urls : List String) :
    (addToHostList c urls).1.queue = c.queue := rfl

@[simp] theorem addToHostList_activeTasks (c : ConnState) (urls : List String) :
    (addToHostList c urls).1.activeTasks = c.activeTasks := rfl

@[simp] theorem addToHostList_maxTasks (c : ConnState) (urls : List String) :
    (addToHostList c urls).1.maxTasks = c.maxTasks := rfl

@[simp] theorem addToHostList_activeHost (c : ConnState) (urls : List String) :
    (addToHostList c urls).1.activeHost = c.activeHost := rfl

/-! Helper lemmas about `jsIndexOf`. -/

theorem jsIndexOf_eq_length (l : List String) (u : String) (h : u ∉ l) :
    jsIndexOf l u = l.length := by
  induction l with
  | nil => rfl
  | cons x xs ih =>
    simp only [List.mem_cons, not_or] at h
    simp [jsIndexOf, h.1, Ne.symm h.1, ih h.2]

theorem jsIndexOf_lt_length (l : List String) (u : String) (h : u ∈ l) :
    jsIndexOf l u < l.length := by
  induction l with
  | nil => simp at h
  | cons x xs ih =>
    by_cases hx : x = u
    · simp [jsIndexOf, hx]
    · rcases List.mem_cons.1 h with h1 | h1
      · exact absurd h1.symm hx
      · simpa [jsIndexOf, hx] using ih h1

theorem jsIndexOf_append_left (l l2 : List String) (u : String) (h : u ∈ l) :
    jsIndexOf (l ++ l2) u = jsIndexOf l u := by
  induction l with
  | nil => simp at h
  | cons x xs ih =>
    by_cases hx : x = u
    · simp [jsIndexOf, hx]
    · rcases List.mem_cons.1 h with h1 | h1
      · exact absurd h1.symm hx
      · simp [jsIndexOf, hx, ih h1]

theorem jsIndexOf_append_new (l l2 : List String) (u : String) (h : u ∉ l) :
    jsIndexOf (l ++ u :: l2) u = l.length := by
  induction l with
  | nil => simp [jsIndexOf]
  | cons x xs ih =>
    simp only [List.mem_cons, not_or] at h
    simp [jsIndexOf, Ne.symm h.1, ih h.2]

theorem jsIndexOf_eq_length_iff (l : List String) (u : String) :
    jsIndexOf l u = l.length ↔ u ∉ l := by
  constructor
  · intro h hmem
    exact absurd h (Nat.ne_of_lt (jsIndexOf_lt_length l u hmem))
  · exact jsIndexOf_eq_length l u

/-- A call whose normalized URLs are all already pooled is a no-op returning
    the existing indices. -/
theorem addToHostList_absorbed (c : ConnState) (urls : List String)
    (h : ∀ u ∈ urls.map normalizeUrl, u ∈ c.urls) :
    addToHostList c urls =
      (c, (urls.map normalizeUrl).map (fun u => jsIndexOf c.urls u)) := by
  have hempty : (urls.map normalizeUrl).filter
      (fun u => decide (jsIndexOf c.urls u = c.urls.length)) = [] := by
    rw [List.filter_eq_nil_iff]
    intro u hu
    simp only [decide_eq_true_eq]
    exact Nat.ne_of_lt (jsIndexOf_lt_length _ _ (h u hu))
  unfold addToHostList
  simp only [hempty, List.append_nil, List.length_nil, Nat.add_zero]

/-! Characterization of the dispatch step. -/

theorem runQueue_of_empty (c : ConnState) (h : c.queue = []) :
    runQueue c = (c, none) := by
  unfold runQueue
  rw [h]

theorem runQueue_saturated (c : ConnState) (h : c.maxTasks ≤ c.activeTasks) :
    runQueue c = (c, none) := by
  unfold runQueue
  rcases hq : c.queue with _ | ⟨t, rest⟩
  · rfl
  · simp [h]

theorem runQueue_dispatch (c : ConnState) (t : Task) (rest : List Task)
    (hq : c.queue = t :: rest) (hcap : c.activeTasks < c.maxTasks) :
    runQueue c =
      ({ cursorUpdate c t with
          queue := rest, activeTasks := (cursorUpdate c t).activeTasks + 1 },
       some ⟨t, dispatchHost c t⟩) := by
  unfold runQueue
  rw [hq]
  simp [Nat.not_le.2 hcap]

/-! Conservation of per-promise bookkeeping across every step: a promise id
    always sits in exactly one place (queue, in-flight callback, or outcome
    log), so outcomes are produced exactly once per request. -/

theorem countP_eraseIdx {α : Type} (l : List α) (i : Nat) (a : α)
    (h : l[i]? = some a) (p : α → Bool) :
    l.countP p = (l.eraseIdx i).countP p + (if p a then 1 else 0) := by
  induction l generalizing i with
  | nil => simp at h
  | cons x xs ih =>
    cases i with
    | zero =>
      simp only [List.getElem?_cons_zero, Option.some_inj] at h
      subst h
      simp [List.countP_cons, List.eraseIdx]
      try omega
    | succ j =>
      simp only [List.getElem?_cons_succ] at h
      simp only [List.eraseIdx_cons_succ, List.countP_cons, ih j h]
      omega

theorem length_eraseIdx_succ {α : Type} (l : List α) (i : Nat) (a : α)
    (h : l[i]? = some a) :
    (l.eraseIdx i).length + 1 = l.length := by
  have hi : i < l.length := by
    by_contra hge
    rw [List.getElem?_eq_none (Nat.le_of_not_lt hge)] at h
    exact Option.noConfusion h
  rw [List.length_eraseIdx]
  simp [hi]
  omega

theorem stepRunQueue_idCount (s : SchedState) (id : Nat) :
    idCount (stepRunQueue s) id = idCount s id := by
  rcases hq : s.conn.queue with _ | ⟨t, rest⟩
  · simp [stepRunQueue, runQueue_of_empty s.conn hq]
  · by_cases hcap : s.conn.activeTasks < s.conn.maxTasks
    · simp only [stepRunQueue, runQueue_dispatch s.conn t rest hq hcap]
      simp [idCount, qCount, fCount, eventCount, hq, List.countP_append,
        List.countP_cons]
      try omega
    · simp [stepRunQueue, runQueue_saturated s.conn (Nat.le_of_not_lt hcap)]

theorem completeErr_qCount (c : ConnState) (t : Task) (host : Nat) (e : JsErr)
    (id : Nat) :
    qCount (completeErr c t host e).1.queue id
      + evCount1 (completeErr c t host e).2 id
    = qCount c.queue id + (if t.id = id then 1 else 0) := by
  cases hcond :
      retryDecision (failoverUpdate { c with activeTasks := c.activeTasks - 1 } t host) t e
  · simp [completeErr, hcond, qCount, evCount1, Event.taskId]
  · simp [completeErr, hcond, qCount, evCount1, List.countP_append,
      List.countP_cons]

theorem completeRes_qCount (c : ConnState) (t : Task) (host : Nat)
    (res : Response) (id : Nat) :
    qCount (completeRes c t host res).1.queue id
      + evCount1 (completeRes c t host res).2 id
    = qCount c.queue id + (if t.id = id then 1 else 0) := by
  cases hcond : leaderRedirect res
  · simp [completeRes, hcond, qCount, evCount1, Event.taskId]
  · unfold completeRes
    rw [hcond]
    simp only [if_true]
    split <;>
      simp [qCount, evCount1, List.countP_append, List.countP_cons]

theorem applyCb_qCount (c : ConnState) (f : Flight) (r : CbResult) (id : Nat) :
    qCount (applyCb c f r).1.queue id + evCount1 (applyCb c f r).2 id
      = qCount c.queue id + (if f.task.id = id then 1 else 0) := by
  cases r with
  | err e => exact completeErr_qCount c f.task f.host e id
  | ok res => exact completeRes_qCount c f.task f.host res id

theorem doComplete_idCount (s : SchedState) (i : Nat) (r : CbResult) (id : Nat) :
    idCount (doComplete s i r) id = idCount s id := by
  rcases hf : s.inflight[i]? with _ | f
  · simp [doComplete, hf]
  · have hcons := applyCb_qCount s.conn f r id
    have herase := countP_eraseIdx s.inflight i f hf
      (fun g => g.task.id == id)
    rcases happ : applyCb s.conn f r with ⟨c1, ev⟩
    rw [happ] at hcons
    simp only [doComplete, hf, happ]
    rw [stepRunQueue_idCount]
    by_cases hfid : f.task.id = id
    all_goals cases ev with
    | none =>
      simp only [evCount1] at hcons
      simp only [idCount, qCount, fCount, eventCount] at hcons herase ⊢
      simp only [beq_iff_eq] at herase
      simp only [hfid, if_true, if_false, reduceIte] at herase hcons
      omega
    | some e1 =>
      simp only [evCount1] at hcons
      simp only [idCount, qCount, fCount, eventCount] at hcons herase ⊢
      simp only [List.countP_append, List.countP_cons, List.countP_nil,
        beq_iff_eq] at herase ⊢
      by_cases hid : e1.taskId = id
      all_goals simp only [hfid, hid, if_true, if_false, reduceIte]
        at hcons herase ⊢
      all_goals omega

theorem doRequest_idCount (s : SchedState) (id : Nat) (host : Option Nat)
    (dirty : Bool) (id' : Nat) :
    idCount (doRequest s id host dirty) id'
      = idCount s id' + (if id = id' then 1 else 0) := by
  unfold doRequest
  rw [stepRunQueue_idCount]
  simp [idCount, qCount, fCount, eventCount, List.countP_append,
    List.countP_cons]
  try omega

theorem trace_idCount (s0 s : SchedState) (ids : List Nat)
    (h : Trace s0 ids s) (id : Nat) :
    idCount s id = idCount s0 id + ids.count id := by
  induction h with
  | refl => simp
  | request id1 host dirty _ ih =>
    rw [doRequest_idCount, ih, List.count_append]
    simp [List.count_cons]
    try omega
  | complete i r _ ih =>
    rw [doComplete_idCount, ih]

/-! Preservation of the in-flight bookkeeping invariant. -/

theorem completeErr_activeTasks (c : ConnState) (t : Task) (host : Nat)
    (e : JsErr) :
    (completeErr c t host e).1.activeTasks = c.activeTasks - 1 := by
  cases hcond :
      retryDecision (failoverUpdate { c with activeTasks := c.activeTasks - 1 } t host) t e <;>
    simp [completeErr, hcond]

theorem completeErr_maxTasks (c : ConnState) (t : Task) (host : Nat)
    (e : JsErr) :
    (completeErr c t host e).1.maxTasks = c.maxTasks := by
  cases hcond :
      retryDecision (failoverUpdate { c with activeTasks := c.activeTasks - 1 } t host) t e <;>
    simp [completeErr, hcond]

theorem completeRes_activeTasks (c : ConnState) (t : Task) (host : Nat)
    (res : Response) :
    (completeRes c t host res).1.activeTasks = c.activeTasks - 1 := by
  cases hcond : leaderRedirect res
  · simp [completeRes, hcond]
  · unfold completeRes
    rw [hcond]
    simp only [if_true]
    split <;> simp

theorem completeRes_maxTasks (c : ConnState) (t : Task) (host : Nat)
    (res : Response) :
    (completeRes c t host res).1.maxTasks = c.maxTasks := by
  cases hcond : leaderRedirect res
  · simp [completeRes, hcond]
  · unfold completeRes
    rw [hcond]
    simp only [if_true]
    split <;> simp

theorem applyCb_activeTasks (c : ConnState) (f : Flight) (r : CbResult) :
    (applyCb c f r).1.activeTasks = c.activeTasks - 1 := by
  cases r with
  | err e => exact completeErr_activeTasks c f.task f.host e
  | ok res => exact completeRes_activeTasks c f.task f.host res

theorem applyCb_maxTasks (c : ConnState) (f : Flight) (r : CbResult) :
    (applyCb c f r).1.maxTasks = c.maxTasks := by
  cases r with
  | err e => exact completeErr_maxTasks c f.task f.host e
  | ok res => exact completeRes_maxTasks c f.task f.host res

theorem inv_stepRunQueue (s : SchedState) (h : Inv s) : Inv (stepRunQueue s) := by
  rcases hq : s.conn.queue with _ | ⟨t, rest⟩
  · simp only [stepRunQueue, runQueue_of_empty s.conn hq]
    exact h
  · by_cases hcap : s.conn.activeTasks < s.conn.maxTasks
    · simp only [stepRunQueue, runQueue_dispatch s.conn t rest hq hcap]
      constructor
      · simp [h.1]
      · simpa using hcap
    · simp only [stepRunQueue, runQueue_saturated s.conn (Nat.le_of_not_lt hcap)]
      exact h

theorem inv_doRequest (s : SchedState) (id : Nat) (host : Option Nat)
    (dirty : Bool) (h : Inv s) : Inv (doRequest s id host dirty) := by
  unfold doRequest
  exact inv_stepRunQueue _ ⟨h.1, h.2⟩

theorem inv_doComplete (s : SchedState) (i : Nat) (r : CbResult) (h : Inv s) :
    Inv (doComplete s i r) := by
  rcases hf : s.inflight[i]? with _ | f
  · simp only [doComplete, hf]
    exact h
  · have hlen := length_eraseIdx_succ s.inflight i f hf
    rcases happ : applyCb s.conn f r with ⟨c1, ev⟩
    have hact : c1.activeTasks = s.conn.activeTasks - 1 := by
      have := applyCb_activeTasks s.conn f r
      rw [happ] at this
      exact this
    have hmax : c1.maxTasks = s.conn.maxTasks := by
      have := applyCb_maxTasks s.conn f r
      rw [happ] at this
      exact this
    simp only [doComplete, hf, happ]
    apply inv_stepRunQueue
    have h1 := h.1
    have h2 := h.2
    constructor
    · show c1.activeTasks = (s.inflight.eraseIdx i).length
      rw [hact, h1]
      omega
    · show c1.activeTasks ≤ c1.maxTasks
      rw [hact, hmax]
      omega

theorem trace_inv (s0 s : SchedState) (ids : List Nat)
    (h : Trace s0 ids s) (h0 : Inv s0) : Inv s := by
  induction h with
  | refl => exact h0
  | request id1 host dirty _ ih => exact inv_doRequest _ _ _ _ ih
  | complete i r _ ih => exact inv_doComplete _ _ _ ih

/-! Round-robin rotation of consecutive plain dispatches. -/

theorem dispatchMany_rr_hosts (N : Nat) (hN : 0 < N) (k : Nat) :
    ∀ c : ConnState, c.hostsLen = N →
      c.loadBalancingStrategy = .ROUND_ROBIN → c.activeHost < N →
      c.activeTasks + k ≤ c.maxTasks → k ≤ c.queue.length →
      (∀ t ∈ c.queue.take k, t.host = none ∧ t.allowDirtyRead = false) →
      (dispatchMany c k).2 = (List.range k).map (fun i => (c.activeHost + i) % N)
        ∧ (dispatchMany c k).1.activeHost = (c.activeHost + k) % N := by
  induction k with
  | zero =>
    intro c hlen _ ha _ _ _
    simp [dispatchMany, Nat.mod_eq_of_lt ha]
  | succ k ih =>
    intro c hlen hstrat ha hcap hqlen hplain
    rcases hq : c.queue with _ | ⟨t, rest⟩
    · rw [hq] at hqlen
      simp at hqlen
    · have ht : t.host = none ∧ t.allowDirtyRead = false := by
        apply hplain
        rw [hq]
        simp [List.take_cons]
      have hcap' : c.activeTasks < c.maxTasks := by omega
      have hrq := runQueue_dispatch c t rest hq hcap'
      have hcu : cursorUpdate c t =
          { c with activeHost := (c.activeHost + 1) % c.hostsLen } := by
        unfold cursorUpdate
        rw [if_neg (by simp [ht.1, ht.2]), if_pos ⟨ht.1, ht.2, hstrat⟩]
      have hdh : dispatchHost c t = c.activeHost := by
        unfold dispatchHost
        rw [ht.1]
        simp [ht.2]
      simp only [dispatchMany, hrq, hcu, hdh]
      have hrec := ih { c with
          activeHost := (c.activeHost + 1) % c.hostsLen,
          queue := rest, activeTasks := c.activeTasks + 1 }
        (by simpa using hlen) (by simpa using hstrat)
        (by simp [hlen]; exact Nat.mod_lt _ hN)
        (by simp; omega)
        (by
          rw [hq] at hqlen
          simpa using Nat.le_of_succ_le_succ hqlen)
        (by
          intro t2 ht2
          apply hplain
          rw [hq]
          simp at ht2 ⊢
          exact Or.inr ht2)
      rcases hrec with ⟨hlist, hcursor⟩
      constructor
      · simp only at hlist
        rw [hlist, List.range_succ_eq_map, List.map_cons, List.map_map]
        congr 1
        · simp [Nat.mod_eq_of_lt ha]
        · apply List.map_congr_left
          intro i _
          simp only [Function.comp_apply, hlen]
          rw [Nat.mod_add_mod]
          congr 1
          omega
      · simp only at hcursor
        rw [hcursor]
        simp only [hlen]
        rw [Nat.mod_add_mod]
        congr 1
        omega

/-! Characterization of `addToHostList` on a single URL (the leader-redirect
    path adds exactly one endpoint per redirect). -/

theorem addToHostList_single (c : ConnState) (u0 : String) :
    (addToHostList c [u0]).1.urls
        = (if normalizeUrl u0 ∈ c.urls then c.urls else c.urls ++ [normalizeUrl u0])
    ∧ (addToHostList c [u0]).1.hostsLen
        = (if normalizeUrl u0 ∈ c.urls then c.hostsLen else c.hostsLen + 1)
    ∧ (addToHostList c [u0]).2
        = [if normalizeUrl u0 ∈ c.urls then jsIndexOf c.urls (normalizeUrl u0)
           else c.urls.length] := by
  by_cases hmem : normalizeUrl u0 ∈ c.urls
  · have hne : ¬ jsIndexOf c.urls (normalizeUrl u0) = c.urls.length :=
      Nat.ne_of_lt (jsIndexOf_lt_length _ _ hmem)
    simp [addToHostList, List.filter_cons, hne, hmem,
      jsIndexOf_append_left _ [] _ hmem]
  · have heq : jsIndexOf c.urls (normalizeUrl u0) = c.urls.length :=
      jsIndexOf_eq_length _ _ hmem
    simp [addToHostList, List.filter_cons, heq, hmem,
      jsIndexOf_append_new c.urls [] _ hmem]

/-! Semantic reading of the error-envelope test. -/

theorem isArangoErrorResponse_iff (body : JsValue) :
    isArangoErrorResponse body = true ↔
      ∃ fields, body = .obj fields
        ∧ (∃ v, ("error", v) ∈ fields) ∧ (∃ v, ("code", v) ∈ fields)
        ∧ (∃ v, ("errorMessage", v) ∈ fields)
        ∧ (∃ v, ("errorNum", v) ∈ fields) := by
  constructor
  · intro h
    cases body with
    | obj fields =>
      refine ⟨fields, rfl, ?_, ?_, ?_, ?_⟩ <;>
      · simp only [isArangoErrorResponse, hasOwnProp, Bool.and_eq_true,
          List.any_eq_true, beq_iff_eq] at h
        first
        | (obtain ⟨⟨⟨⟨_, ⟨p, hp, hk⟩⟩, _⟩, _⟩, _⟩ := h
           exact ⟨p.2, by rwa [← hk, Prod.mk.eta]⟩)
        | (obtain ⟨⟨⟨_, ⟨p, hp, hk⟩⟩, _⟩, _⟩ := h
           exact ⟨p.2, by rwa [← hk, Prod.mk.eta]⟩)
        | (obtain ⟨⟨_, ⟨p, hp, hk⟩⟩, _⟩ := h
           exact ⟨p.2, by rwa [← hk, Prod.mk.eta]⟩)
        | (obtain ⟨_, ⟨p, hp, hk⟩⟩ := h
           exact ⟨p.2, by rwa [← hk, Prod.mk.eta]⟩)
    | nullV => simp [isArangoErrorResponse, truthy, hasOwnProp] at h
    | undefinedV => simp [isArangoErrorResponse, truthy, hasOwnProp] at h
    | boolV b => simp [isArangoErrorResponse, hasOwnProp] at h
    | numV n => simp [isArangoErrorResponse, hasOwnProp] at h
    | strV s => simp [isArangoErrorResponse, hasOwnProp] at h
    | arr l => simp [isArangoErrorResponse, hasOwnProp] at h
  · rintro ⟨fields, rfl, ⟨v1, h1⟩, ⟨v2, h2⟩, ⟨v3, h3⟩, ⟨v4, h4⟩⟩
    simp only [isArangoErrorResponse, truthy, hasOwnProp, Bool.and_eq_true,
      List.any_eq_true, beq_iff_eq]
    exact ⟨⟨⟨⟨trivial, ⟨_, h1, rfl⟩⟩, ⟨_, h2, rfl⟩⟩, ⟨_, h3, rfl⟩⟩, ⟨_, h4, rfl⟩⟩

/-! Bridging lemmas between the Boolean branch tests and their semantic
    readings. -/

theorem retryDecision_failover (c : ConnState) (t : Task) (host : Nat)
    (e : JsErr) :
    retryDecision (failoverUpdate { c with activeTasks := c.activeTasks - 1 } t host) t e
      = retryDecision c t e := by
  unfold retryDecision
  simp [retryBudget]

theorem retryDecision_iff (c : ConnState) (t : Task) (e : JsErr) :
    retryDecision c t e = true ↔
      ((t.host = none ∨ t.host = some 0) ∧ c.shouldRetry = true
        ∧ t.retries < retryBudget c ∧ isConnRefused e = true) := by
  unfold retryDecision Task.hostFalsy isConnRefused
  simp only [Bool.and_eq_true, Bool.or_eq_true, beq_iff_eq,
    decide_eq_true_eq]
  tauto

theorem completeErr_activeHost (c : ConnState) (t : Task) (host : Nat)
    (e : JsErr) :
    (completeErr c t host e).1.activeHost
      = (failoverUpdate { c with activeTasks := c.activeTasks - 1 } t host).activeHost := by
  cases hcond :
      retryDecision (failoverUpdate { c with activeTasks := c.activeTasks - 1 } t host) t e <;>
    simp [completeErr, hcond]

theorem failover_cond_iff (c : ConnState) (t : Task) (host : Nat) :
    (!t.allowDirtyRead && decide (1 < c.hostsLen) && (c.activeHost == host)
        && ConnState.useFailOver c) = true ↔
      (t.allowDirtyRead = false ∧ 1 < c.hostsLen ∧ c.activeHost = host
        ∧ c.loadBalancingStrategy ≠ .ROUND_ROBIN) := by
  unfold ConnState.useFailOver
  simp only [Bool.and_eq_true, Bool.not_eq_true', beq_iff_eq,
    decide_eq_true_eq, bne_iff_ne]
  tauto

theorem failoverUpdate_activeHost (c : ConnState) (t : Task) (host : Nat) :
    (failoverUpdate c t host).activeHost =
      if t.allowDirtyRead = false ∧ 1 < c.hostsLen ∧ c.activeHost = host
          ∧ c.loadBalancingStrategy ≠ .ROUND_ROBIN
      then (c.activeHost + 1) % c.hostsLen
      else c.activeHost := by
  by_cases h : (t.allowDirtyRead = false ∧ 1 < c.hostsLen ∧ c.activeHost = host
      ∧ c.loadBalancingStrategy ≠ .ROUND_ROBIN)
  · rw [if_pos h]
    unfold failoverUpdate
    rw [if_pos ((failover_cond_iff c t host).mpr h)]
  · rw [if_neg h]
    unfold failoverUpdate
    rw [if_neg (fun hb => h ((failover_cond_iff c t host).mp hb))]

theorem completeErr_eq_retry (c : ConnState) (t : Task) (host : Nat)
    (e : JsErr) (hb : retryDecision c t e = true) :
    completeErr c t host e =
      ({ failoverUpdate { c with activeTasks := c.activeTasks - 1 } t host with
          queue := c.queue ++ [{ t with retries := t.retries + 1 }] }, none) := by
  have hfo := retryDecision_failover c t host e
  rw [hb] at hfo
  simp [completeErr, hfo]

theorem completeErr_eq_reject (c : ConnState) (t : Task) (host : Nat)
    (e : JsErr) (hb : retryDecision c t e = false) :
    completeErr c t host e =
      (failoverUpdate { c with activeTasks := c.activeTasks - 1 } t host,
       some (.rejected t.id e)) := by
  have hfo := retryDecision_failover c t host e
  rw [hb] at hfo
  simp [completeErr, hfo]

/-! Lemmas about whole runs under ROUND_ROBIN.  Under that strategy the
    active cursor moves only when a plain task is dispatched (the error-path
    failover is disabled because `_useFailOver` is false), except that a
    leader-redirect completion may rewrite it — hence the redirect-free
    hypothesis below. -/

@[simp] theorem failoverUpdate_strategy (c : ConnState) (t : Task) (host : Nat) :
    (failoverUpdate c t host).loadBalancingStrategy = c.loadBalancingStrategy := by
  unfold failoverUpdate
  split <;> rfl

theorem completeErr_hostsLen (c : ConnState) (t : Task) (host : Nat)
    (e : JsErr) :
    (completeErr c t host e).1.hostsLen = c.hostsLen := by
  cases hcond :
      retryDecision (failoverUpdate { c with activeTasks := c.activeTasks - 1 } t host) t e <;>
    simp [completeErr, hcond]

theorem completeErr_strategy (c : ConnState) (t : Task) (host : Nat)
    (e : JsErr) :
    (completeErr c t host e).1.loadBalancingStrategy
      = c.loadBalancingStrategy := by
  cases hcond :
      retryDecision (failoverUpdate { c with activeTasks := c.activeTasks - 1 } t host) t e <;>
    simp [completeErr, hcond]

theorem completeRes_nonredirect (c : ConnState) (t : Task) (host : Nat)
    (res : Response) (h : leaderRedirect res = false) :
    completeRes c t host res =
      ({ c with activeTasks := c.activeTasks - 1 },
       some (.resolved t.id host res)) := by
  simp [completeRes, h]

theorem stepRunQueue_conn (s : SchedState) :
    (stepRunQueue s).conn = (runQueue s.conn).1 := by
  unfold stepRunQueue
  rcases h : runQueue s.conn with ⟨c1, fl⟩
  cases fl <;> simp

theorem stepRunQueue_inflight (s : SchedState) :
    (stepRunQueue s).inflight = s.inflight ++ ((runQueue s.conn).2).toList := by
  unfold stepRunQueue
  rcases h : runQueue s.conn with ⟨c1, fl⟩
  cases fl <;> simp

/-- `dispatchOf` names exactly the flight a `request` step starts. -/
theorem dispatchOf_request (s : SchedState) (id : Nat) (host : Option Nat)
    (dirty : Bool) :
    (applyStep s (.request id host dirty)).inflight
      = s.inflight ++ (dispatchOf s (.request id host dirty)).toList := by
  unfold applyStep doRequest
  rw [stepRunQueue_inflight]
  rfl

/-- `dispatchOf` names exactly the flight a `complete` step starts. -/
theorem dispatchOf_complete (s : SchedState) (i : Nat) (r : CbResult)
    (f0 : Flight) (hf : s.inflight[i]? = some f0) :
    (applyStep s (.complete i r)).inflight
      = s.inflight.eraseIdx i ++ (dispatchOf s (.complete i r)).toList := by
  simp only [applyStep, doComplete, dispatchOf, hf]
  rw [stepRunQueue_inflight]

/-- How one dispatch step relates to the active cursor under ROUND_ROBIN:
    only a plain dispatch moves it (by 1 mod pool size), and that dispatch
    targets the cursor's prior value. -/
theorem runQueue_rr (c : ConnState)
    (hstrat : c.loadBalancingStrategy = .ROUND_ROBIN) :
    (runQueue c).1.loadBalancingStrategy = .ROUND_ROBIN
    ∧ (runQueue c).1.hostsLen = c.hostsLen
    ∧ ((runQueue c).2 = none → (runQueue c).1.activeHost = c.activeHost)
    ∧ (∀ f, (runQueue c).2 = some f →
        (Flight.plain f = true →
          f.host = c.activeHost
          ∧ (runQueue c).1.activeHost = (c.activeHost + 1) % c.hostsLen)
        ∧ (Flight.plain f = false →
          (runQueue c).1.activeHost = c.activeHost)) := by
  rcases hq : c.queue with _ | ⟨t, rest⟩
  · rw [runQueue_of_empty c hq]
    exact ⟨hstrat, rfl, fun _ => rfl, fun f hf => Option.noConfusion hf⟩
  · by_cases hcap : c.activeTasks < c.maxTasks
    · rw [runQueue_dispatch c t rest hq hcap]
      refine ⟨by simp [hstrat], by simp, fun h => Option.noConfusion h, ?_⟩
      intro f hf
      rw [Option.some_inj] at hf
      subst hf
      constructor
      · intro hplain
        simp only [Flight.plain, Bool.and_eq_true, beq_iff_eq,
          Bool.not_eq_true'] at hplain
        have hcu : cursorUpdate c t =
            { c with activeHost := (c.activeHost + 1) % c.hostsLen } := by
          unfold cursorUpdate
          rw [if_neg (by simp [hplain.1, hplain.2]),
            if_pos ⟨hplain.1, hplain.2, hstrat⟩]
        constructor
        · show dispatchHost c t = c.activeHost
          unfold dispatchHost
          rw [hplain.1]
          simp [hplain.2]
        · simp [hcu]
      · intro hplain
        simp only [Flight.plain, Bool.and_eq_true, beq_iff_eq,
          Bool.not_eq_true'] at hplain
        have hcases : ¬(t.host = none ∧ t.allowDirtyRead = false) := by
          intro hcon
          simp [hcon.1, hcon.2] at hplain
        have hcu : (cursorUpdate c t).activeHost = c.activeHost := by
          unfold cursorUpdate
          split
          · rfl
          · split
            · rename_i h2
              exact absurd ⟨h2.1, h2.2.1⟩ hcases
            · rfl
        simp [hcu]
    · rw [runQueue_saturated c (Nat.le_of_not_lt hcap)]
      exact ⟨hstrat, rfl, fun _ => rfl, fun f hf => Option.noConfusion hf⟩

/-- Under ROUND_ROBIN a non-redirect completion callback leaves the active
    cursor, pool size and strategy unchanged before its `_runQueue` pass. -/
theorem applyCb_rr_frame (c : ConnState) (f : Flight) (r : CbResult)
    (hstrat : c.loadBalancingStrategy = .ROUND_ROBIN)
    (hfree : ∀ res, r = .ok res → leaderRedirect res = false) :
    (applyCb c f r).1.activeHost = c.activeHost
    ∧ (applyCb c f r).1.hostsLen = c.hostsLen
    ∧ (applyCb c f r).1.loadBalancingStrategy = .ROUND_ROBIN := by
  cases r with
  | err e =>
    refine ⟨?_, completeErr_hostsLen c f.task f.host e, by
      show (completeErr c f.task f.host e).1.loadBalancingStrategy = _
      rw [completeErr_strategy]
      exact hstrat⟩
    show (completeErr c f.task f.host e).1.activeHost = c.activeHost
    rw [completeErr_activeHost, failoverUpdate_activeHost]
    rw [if_neg (by
      rintro ⟨-, -, -, hne⟩
      exact hne (by simpa using hstrat))]
  | ok res =>
    show (completeRes c f.task f.host res).1.activeHost = c.activeHost
      ∧ (completeRes c f.task f.host res).1.hostsLen = c.hostsLen
      ∧ (completeRes c f.task f.host res).1.loadBalancingStrategy = _
    rw [completeRes_nonredirect c f.task f.host res (hfree res rfl)]
    exact ⟨rfl, rfl, hstrat⟩

/-- One redirect-free step under ROUND_ROBIN: strategy and pool size are
    preserved, and the cursor moves (by 1 mod pool size) exactly when the
    step dispatches a plain task, which then targets the prior cursor. -/
theorem applyStep_rr (s : SchedState) (l : StepLabel)
    (hstrat : s.conn.loadBalancingStrategy = .ROUND_ROBIN)
    (hfree : redirectFree l = true) :
    (applyStep s l).conn.loadBalancingStrategy = .ROUND_ROBIN
    ∧ (applyStep s l).conn.hostsLen = s.conn.hostsLen
    ∧ (dispatchOf s l = none →
        (applyStep s l).conn.activeHost = s.conn.activeHost)
    ∧ (∀ f, dispatchOf s l = some f →
        (Flight.plain f = true →
          f.host = s.conn.activeHost
          ∧ (applyStep s l).conn.activeHost
              = (s.conn.activeHost + 1) % s.conn.hostsLen)
        ∧ (Flight.plain f = false →
          (applyStep s l).conn.activeHost = s.conn.activeHost)) := by
  cases l with
  | request id host dirty =>
    have hconn : (applyStep s (.request id host dirty)).conn
        = (runQueue { s.conn with queue := s.conn.queue ++
            [{ id := id, retries := 0, host := host, allowDirtyRead := dirty }] }).1 := by
      unfold applyStep doRequest
      exact stepRunQueue_conn _
    have h := runQueue_rr { s.conn with queue := s.conn.queue ++
        [{ id := id, retries := 0, host := host, allowDirtyRead := dirty }] }
      (by simpa using hstrat)
    rw [hconn]
    exact ⟨h.1, h.2.1, h.2.2.1, h.2.2.2⟩
  | complete i r =>
    rcases hf : s.inflight[i]? with _ | f0
    · have hid : applyStep s (.complete i r) = s := by
        simp [applyStep, doComplete, hf]
      have hdn : dispatchOf s (.complete i r) = none := by
        simp [dispatchOf, hf]
      rw [hid, hdn]
      exact ⟨hstrat, rfl, fun _ => rfl, fun f hsome => Option.noConfusion hsome⟩
    · have hfr : ∀ res, r = .ok res → leaderRedirect res = false := by
        intro res hr
        subst hr
        simpa [redirectFree] using hfree
      have hcb := applyCb_rr_frame s.conn f0 r hstrat hfr
      have hconn : (applyStep s (.complete i r)).conn
          = (runQueue (applyCb s.conn f0 r).1).1 := by
        simp only [applyStep, doComplete, hf]
        exact stepRunQueue_conn _
      have hdisp : dispatchOf s (.complete i r)
          = (runQueue (applyCb s.conn f0 r).1).2 := by
        simp only [dispatchOf, hf]
      have h := runQueue_rr (applyCb s.conn f0 r).1 hcb.2.2
      rw [hconn, hdisp]
      refine ⟨h.1, by rw [h.2.1, hcb.2.1], ?_, ?_⟩
      · intro hnone
        rw [h.2.2.1 hnone, hcb.1]
      · intro f hsome
        refine ⟨?_, ?_⟩
        · intro hplain
          have h2 := (h.2.2.2 f hsome).1 hplain
          rw [h2.1, h2.2, hcb.1, hcb.2.1]
          exact ⟨rfl, rfl⟩
        · intro hplain
          rw [(h.2.2.2 f hsome).2 hplain, hcb.1]

/-- Prepending the pre-advance cursor to a rotation starting at the advanced
    cursor yields the rotation starting at the original cursor. -/
theorem range_map_rotate (N a k : Nat) (ha : a < N) :
    a :: (List.range k).map (fun i => ((a + 1) % N + i) % N)
      = (List.range (k + 1)).map (fun i => (a + i) % N) := by
  rw [List.range_succ_eq_map, List.map_cons, List.map_map]
  congr 1
  · exact (Nat.mod_eq_of_lt ha).symm
  · apply List.map_congr_left
    intro i _
    simp only [Function.comp_apply]
    rw [Nat.mod_add_mod]
    congr 1
    omega

/-- The plain dispatches of a redirect-free run under ROUND_ROBIN rotate
    the cursor: the i-th plain dispatch targets (start cursor + i) mod N and
    the cursor ends at (start cursor + number of plain dispatches) mod N. -/
theorem runSched_rr (N : Nat) :
    ∀ (ls : List StepLabel) (s : SchedState),
      s.conn.loadBalancingStrategy = .ROUND_ROBIN →
      s.conn.hostsLen = N → s.conn.activeHost < N →
      (∀ l ∈ ls, redirectFree l = true) →
      plainHostsOf s ls
          = (List.range (plainHostsOf s ls).length).map
              (fun i => (s.conn.activeHost + i) % N)
        ∧ (runSched s ls).conn.activeHost
            = (s.conn.activeHost + (plainHostsOf s ls).length) % N := by
  intro ls
  induction ls with
  | nil =>
    intro s _ _ ha _
    simp [plainHostsOf, dispatchesOf, runSched, Nat.mod_eq_of_lt ha]
  | cons l ls ih =>
    intro s hstrat hlen ha hfree
    have hstep := applyStep_rr s l hstrat (hfree l (List.mem_cons_self l ls))
    have hfree' : ∀ l2 ∈ ls, redirectFree l2 = true :=
      fun l2 h2 => hfree l2 (List.mem_cons_of_mem l h2)
    have hN : 0 < N := Nat.pos_of_ne_zero (by
      intro h0
      rw [h0] at ha
      exact Nat.not_lt_zero _ ha)
    have hsplit : plainHostsOf s (l :: ls)
        = ((dispatchOf s l).toList.filter Flight.plain).map Flight.host
          ++ plainHostsOf (applyStep s l) ls := by
      simp only [plainHostsOf, dispatchesOf, List.filter_append,
        List.map_append]
    have hrun : runSched s (l :: ls) = runSched (applyStep s l) ls := rfl
    rcases hd : dispatchOf s l with _ | f
    · have hah : (applyStep s l).conn.activeHost = s.conn.activeHost :=
        hstep.2.2.1 hd
      have hrec := ih (applyStep s l) hstep.1 (by rw [hstep.2.1, hlen])
        (by rw [hah]; exact ha) hfree'
      rw [hsplit, hd]
      simp only [Option.toList, List.filter_nil, List.map_nil, List.nil_append]
      rw [hrun]
      rw [hah] at hrec
      exact hrec
    · rcases hp : Flight.plain f with _ | _
      · have hah : (applyStep s l).conn.activeHost = s.conn.activeHost :=
          (hstep.2.2.2 f hd).2 hp
        have hrec := ih (applyStep s l) hstep.1 (by rw [hstep.2.1, hlen])
          (by rw [hah]; exact ha) hfree'
        rw [hsplit, hd]
        simp only [Option.toList, List.filter_cons, List.filter_nil, hp,
          Bool.false_eq_true, if_false, List.map_nil, List.nil_append]
        rw [hrun]
        rw [hah] at hrec
        exact hrec
      · have hpl := (hstep.2.2.2 f hd).1 hp
        have hah : (applyStep s l).conn.activeHost
            = (s.conn.activeHost + 1) % N := by
          rw [hpl.2, hlen]
        have hrec := ih (applyStep s l) hstep.1 (by rw [hstep.2.1, hlen])
          (by rw [hah]; exact Nat.mod_lt _ hN) hfree'
        rw [hah] at hrec
        rw [hsplit, hd]
        simp only [Option.toList, List.filter_cons, hp, if_true,
          List.map_cons, List.filter_nil, List.map_nil,
          List.singleton_append]
        rw [hrun]
        constructor
        · rw [List.length_cons, hpl.1, hrec.1]
          simp only [List.length_map, List.length_range]
          exact range_map_rotate N s.conn.activeHost _ ha
        · rw [List.length_cons, hrec.2, Nat.mod_add_mod]
          congr 1
          omega

/-! Claim theorems. -/

/-- C1 (amended): on a transport error the Scheduler transparently retries
    (re-enqueues the task at the queue tail with its retry count incremented
    and no caller-visible outcome) if and only if the task's pinned-host
    field is unset OR set to host index 0 (the JS falsiness test `!task.host`
    treats a pin to index 0 as unpinned), retries are enabled, the retry
    count is strictly below the budget (configured max-retries if nonzero,
    else pool-size-minus-one), and the error is a connection-refused-class
    system error; otherwise the caller's promise is rejected with the error.
    With `maxRetries = 2` and every attempt failing with connection-refused,
    the promise rejects after exactly 2 retries (3 total attempts): the runs
    after attempts 1-3 still have one in-flight retry and no outcome, and the
    third completion rejects with the transport error, leaving nothing
    queued or in flight. -/
theorem retry_decision_characterization :
    (∀ (c : ConnState) (t : Task) (host : Nat) (e : JsErr),
      ((completeErr c t host e).2 = none ↔
        ((t.host = none ∨ t.host = some 0) ∧ c.shouldRetry = true
          ∧ t.retries < retryBudget c ∧ isConnRefused e = true))
      ∧ ((completeErr c t host e).1.queue =
          if (t.host = none ∨ t.host = some 0) ∧ c.shouldRetry = true
              ∧ t.retries < retryBudget c ∧ isConnRefused e = true
          then c.queue ++ [{ t with retries := t.retries + 1 }]
          else c.queue)
      ∧ ((completeErr c t host e).2 = none
          ∨ (completeErr c t host e).2 = some (.rejected t.id e)))
    ∧ ((retryRun 0).inflight.length = 1 ∧ (retryRun 0).events = []
      ∧ (retryRun 1).inflight.length = 1 ∧ (retryRun 1).events = []
      ∧ (retryRun 2).inflight.length = 1 ∧ (retryRun 2).events = []
      ∧ (retryRun 3).events = [.rejected 7 connRefusedErr]
      ∧ (retryRun 3).inflight = [] ∧ (retryRun 3).conn.queue = []) := by
  constructor
  · intro c t host e
    have hiff := retryDecision_iff c t e
    by_cases hcond : ((t.host = none ∨ t.host = some 0) ∧ c.shouldRetry = true
        ∧ t.retries < retryBudget c ∧ isConnRefused e = true)
    · have hb : retryDecision c t e = true := hiff.mpr hcond
      rw [completeErr_eq_retry c t host e hb]
      refine ⟨⟨fun _ => hcond, fun _ => rfl⟩, ?_, Or.inl rfl⟩
      rw [if_pos hcond]
    · have hb : retryDecision c t e = false := by
        cases hx : retryDecision c t e
        · rfl
        · exact absurd (hiff.mp hx) hcond
      rw [completeErr_eq_reject c t host e hb]
      refine ⟨⟨fun h => absurd h (Option.some_ne_none _), fun h => absurd h hcond⟩,
        ?_, Or.inr rfl⟩
      rw [if_neg hcond]
      simp
  · refine ⟨by decide, by decide, by decide, by decide, by decide, by decide,
      by decide, by decide, by decide⟩

/-- C1 counterexample: the claim says a task pinned to a specific host is
    never retried, but the code's falsy test `!task.host` also fires for a
    pin to host index 0 — this pinned task failing with connection-refused
    is transparently re-enqueued (no rejection), contradicting the claimed
    "if and only if the task was not pinned" condition. -/
theorem pinned_task_zero_still_retried :
    pinnedZeroTask.host = some 0
    ∧ twoHostConn.shouldRetry = true
    ∧ pinnedZeroTask.retries < retryBudget twoHostConn
    ∧ isConnRefused connRefusedErr = true
    ∧ (completeErr twoHostConn pinnedZeroTask 0 connRefusedErr).2 = none
    ∧ (completeErr twoHostConn pinnedZeroTask 0 connRefusedErr).1.queue
        = [{ pinnedZeroTask with retries := 1 }] := by
  decide

/-- C2 (amended): on a transport error, the active-host cursor is advanced
    by 1 mod pool size if and only if the task was NOT dirty-read-flagged
    (rather than "not pinned": a pinned non-dirty task whose pinned host
    equals the cursor also triggers the advance), more than one host is
    known, the cursor still equals the host index that served the failed
    dispatch, and the strategy is not ROUND_ROBIN; in every other error case
    the cursor is left unchanged. -/
theorem failover_cursor_characterization (c : ConnState) (t : Task)
    (host : Nat) (e : JsErr) :
    (completeErr c t host e).1.activeHost =
      if t.allowDirtyRead = false ∧ 1 < c.hostsLen ∧ c.activeHost = host
          ∧ c.loadBalancingStrategy ≠ .ROUND_ROBIN
      then (c.activeHost + 1) % c.hostsLen
      else c.activeHost := by
  rw [completeErr_activeHost, failoverUpdate_activeHost]

/-- C2 counterexample: a task pinned to host 0 (hence "pinned to a specific
    host") fails on host 0 while the cursor is 0, two hosts are known and
    the strategy is NONE: the code advances the cursor to 1, though the
    claim's "only if the task was not pinned" forbids any advance here. -/
theorem pinned_task_triggers_failover :
    pinnedZeroTask.host = some 0
    ∧ pinnedZeroTask.allowDirtyRead = false
    ∧ twoHostConn.activeHost = 0
    ∧ 1 < twoHostConn.hostsLen
    ∧ twoHostConn.loadBalancingStrategy ≠ .ROUND_ROBIN
    ∧ (completeErr twoHostConn pinnedZeroTask 0 connResetErr).1.activeHost = 1 := by
  decide

/-- C3: in every state reachable from a state satisfying the bookkeeping
    invariant (in particular any idle start), the number of in-flight tasks
    equals the in-flight counter and never exceeds `maxTasks`; and whenever
    the counter has reached the bound, the dispatch step pops nothing and
    starts no transport (the queue and all state are left untouched) — the
    dispatch step runs again after each completion by construction of the
    completion callback. -/
theorem concurrency_bound (s0 s : SchedState) (ids : List Nat)
    (htr : Trace s0 ids s) (h0 : Inv s0) :
    s.inflight.length ≤ s.conn.maxTasks
    ∧ s.conn.activeTasks = s.inflight.length
    ∧ (∀ c : ConnState, c.maxTasks ≤ c.activeTasks → runQueue c = (c, none)) := by
  have hinv := trace_inv s0 s ids htr h0
  exact ⟨hinv.1 ▸ hinv.2, hinv.1, fun c h => runQueue_saturated c h⟩

/-- C3 witness: one request on the idle single-host connection. -/
theorem concurrency_bound_witness :
    (doRequest oneHostStart 5 none false).inflight.length
      ≤ (doRequest oneHostStart 5 none false).conn.maxTasks
    ∧ (doRequest oneHostStart 5 none false).conn.activeTasks
      = (doRequest oneHostStart 5 none false).inflight.length := by
  have h := concurrency_bound oneHostStart (doRequest oneHostStart 5 none false)
    [5] (Trace.request 5 none false (Trace.refl oneHostStart))
    ⟨by decide, by decide⟩
  exact ⟨h.1, h.2.1⟩

/-- C4: a completed response with status 503 and a truthy authoritative
    endpoint header produces no caller-visible outcome; the endpoint URL is
    normalized and added to the pool only if new (the existing index is
    reused, so with a duplicate-free pool it stays duplicate-free across
    repeated redirects); the task is re-enqueued at the tail pinned to that
    index with its retry count unchanged; and the active cursor moves to the
    index exactly when it equalled the answering host. -/
theorem leader_redirect_behavior (c : ConnState) (t : Task) (host : Nat)
    (res : Response) (h503 : res.statusCode = 503)
    (hhdr : headerTruthy res.leaderEndpoint = true) (hnd : c.urls.Nodup) :
    (completeRes c t host res).2 = none
    ∧ (completeRes c t host res).1.queue =
        c.queue ++ [{ t with
          host := some (if normalizeUrl (res.leaderEndpoint.getD "") ∈ c.urls
              then jsIndexOf c.urls (normalizeUrl (res.leaderEndpoint.getD ""))
              else c.urls.length) }]
    ∧ (completeRes c t host res).1.urls =
        (if normalizeUrl (res.leaderEndpoint.getD "") ∈ c.urls then c.urls
         else c.urls ++ [normalizeUrl (res.leaderEndpoint.getD "")])
    ∧ (completeRes c t host res).1.urls.Nodup
    ∧ (completeRes c t host res).1.activeHost =
        (if c.activeHost = host
         then (if normalizeUrl (res.leaderEndpoint.getD "") ∈ c.urls
               then jsIndexOf c.urls (normalizeUrl (res.leaderEndpoint.getD ""))
               else c.urls.length)
         else c.activeHost) := by
  have hred : leaderRedirect res = true := by
    simp [leaderRedirect, h503, hhdr]
  have hadd := addToHostList_single { c with activeTasks := c.activeTasks - 1 }
    (res.leaderEndpoint.getD "")
  simp only at hadd
  obtain ⟨hurls, hlen, hidx⟩ := hadd
  have hnd2 : (if normalizeUrl (res.leaderEndpoint.getD "") ∈ c.urls then c.urls
      else c.urls ++ [normalizeUrl (res.leaderEndpoint.getD "")]).Nodup := by
    split
    · exact hnd
    · rename_i hmem
      rw [List.nodup_append]
      exact ⟨hnd, List.nodup_singleton _, by
        intro x hx hx2
        simp at hx2
        subst hx2
        exact hmem hx⟩
  unfold completeRes
  rw [hred]
  simp only [if_true, hidx, List.headD_cons]
  refine ⟨?_, ?_, ?_, ?_, ?_⟩
  · trivial
  · split <;> rfl
  · split <;> exact hurls
  · have hx := hnd2
    rw [← hurls] at hx
    split <;> simpa using hx
  · split
    · rename_i h
      simp only [addToHostList_activeHost, beq_iff_eq] at h
      rw [if_pos h]
    · rename_i h
      simp only [addToHostList_activeHost, beq_iff_eq] at h
      rw [if_neg h]
      simp

/-- C4 witness: a redirect to the already-known second host on the two-host
    connection. -/
theorem leader_redirect_behavior_witness :
    (completeRes twoHostConn (plainTask 4) 0
        { statusCode := 503, leaderEndpoint := some "http://h1" }).2 = none
    ∧ (completeRes twoHostConn (plainTask 4) 0
        { statusCode := 503, leaderEndpoint := some "http://h1" }).1.queue
      = [{ plainTask 4 with host := some 1 }]
    ∧ (completeRes twoHostConn (plainTask 4) 0
        { statusCode := 503, leaderEndpoint := some "http://h1" }).1.urls
      = ["http://h0", "http://h1"] := by
  have h := leader_redirect_behavior twoHostConn (plainTask 4) 0
    { statusCode := 503, leaderEndpoint := some "http://h1" }
    rfl (by decide) (by decide)
  refine ⟨h.1, ?_, ?_⟩
  · have h2 := h.2.1
    simpa using h2
  · have h3 := h.2.2.1
    simpa using h3

/-- C5 (amended): with N hosts and strategy ROUND_ROBIN, along any run of
    scheduler steps — requests of any kind (plain, pinned or dirty) and
    transport completions (successes and errors) interleaved arbitrarily —
    that contains no leader-redirect completion (such a completion can
    rewrite the cursor: see the counterexample), the successive dispatches
    of non-dirty, non-pinned tasks rotate strictly: the i-th such dispatch
    targets (starting cursor + i) mod N, so any N consecutive such
    dispatches target pairwise distinct hosts and the dispatch N positions
    later repeats the host; the cursor ends at (starting cursor + count)
    mod N, and each such dispatch advances the cursor by 1 mod N at
    dispatch time, before and independent of the request's outcome. -/
theorem rr_rotation (N : Nat) (s : SchedState) (ls : List StepLabel)
    (hstrat : s.conn.loadBalancingStrategy = .ROUND_ROBIN)
    (hlen : s.conn.hostsLen = N) (ha : s.conn.activeHost < N)
    (hfree : ∀ l ∈ ls, redirectFree l = true) :
    (∀ i, i < (plainHostsOf s ls).length →
        (plainHostsOf s ls)[i]? = some ((s.conn.activeHost + i) % N))
    ∧ (∀ i j, i < j → j < i + N → j < (plainHostsOf s ls).length →
        (plainHostsOf s ls)[i]? ≠ (plainHostsOf s ls)[j]?)
    ∧ (∀ i, i + N < (plainHostsOf s ls).length →
        (plainHostsOf s ls)[i + N]? = (plainHostsOf s ls)[i]?)
    ∧ (runSched s ls).conn.activeHost
        = (s.conn.activeHost + (plainHostsOf s ls).length) % N
    ∧ (∀ (c : ConnState) (t : Task) (rest : List Task),
        c.loadBalancingStrategy = .ROUND_ROBIN → c.queue = t :: rest →
        c.activeTasks < c.maxTasks → t.host = none →
        t.allowDirtyRead = false →
        (runQueue c).2 = some ⟨t, c.activeHost⟩
          ∧ (runQueue c).1.activeHost = (c.activeHost + 1) % c.hostsLen) := by
  obtain ⟨hlist, hcursor⟩ := runSched_rr N ls s hstrat hlen ha hfree
  have hidx : ∀ i, i < (plainHostsOf s ls).length →
      (plainHostsOf s ls)[i]? = some ((s.conn.activeHost + i) % N) := by
    intro i hi
    conv_lhs => rw [hlist]
    rw [List.getElem?_map, List.getElem?_range (by simpa using hi)]
    rfl
  refine ⟨hidx, ?_, ?_, hcursor, ?_⟩
  · intro i j hij hjN hjlen
    have hiN : i < (plainHostsOf s ls).length := lt_trans hij hjlen
    rw [hidx i hiN, hidx j hjlen]
    intro hcontra
    rw [Option.some_inj] at hcontra
    have hdvd : N ∣ j - i := (Nat.modEq_iff_dvd' (le_of_lt hij)).mp
      (Nat.ModEq.add_left_cancel' s.conn.activeHost hcontra)
    have hpos : 0 < j - i := by omega
    have := Nat.le_of_dvd hpos hdvd
    omega
  · intro i hiN
    have h1 := hidx (i + N) hiN
    have h2 := hidx i (by omega)
    rw [h1, h2, Option.some_inj, ← Nat.add_assoc, Nat.add_mod_right]
  · intro c t rest hcs hq hcap hh hdirty
    have hcu : cursorUpdate c t =
        { c with activeHost := (c.activeHost + 1) % c.hostsLen } := by
      unfold cursorUpdate
      rw [if_neg (by simp [hh, hdirty]), if_pos ⟨hh, hdirty, hcs⟩]
    have hdh : dispatchHost c t = c.activeHost := by
      unfold dispatchHost
      rw [hh]
      simp [hdirty]
    rw [runQueue_dispatch c t rest hq hcap]
    constructor
    · rw [hdh]
    · simp [hcu]

/-- C5 witness: run = plain request 1, a successful non-redirect completion
    of it, then plain requests 2 and 3, on the idle two-host round-robin
    connection.  Despite the intervening completion, the three plain
    dispatches target hosts 0, 1, 0 (the first two distinct, the third
    repeating the first) and the cursor ends at 1. -/
theorem rr_rotation_witness :
    (plainHostsOf rrStart
        [.request 1 none false,
         .complete 0 (.ok { statusCode := 200, leaderEndpoint := none }),
         .request 2 none false, .request 3 none false])[0]? = some 0
    ∧ (plainHostsOf rrStart
        [.request 1 none false,
         .complete 0 (.ok { statusCode := 200, leaderEndpoint := none }),
         .request 2 none false, .request 3 none false])[1]? = some 1
    ∧ (plainHostsOf rrStart
        [.request 1 none false,
         .complete 0 (.ok { statusCode := 200, leaderEndpoint := none }),
         .request 2 none false, .request 3 none false])[2]? = some 0
    ∧ (plainHostsOf rrStart
        [.request 1 none false,
         .complete 0 (.ok { statusCode := 200, leaderEndpoint := none }),
         .request 2 none false, .request 3 none false])[0]?
      ≠ (plainHostsOf rrStart
        [.request 1 none false,
         .complete 0 (.ok { statusCode := 200, leaderEndpoint := none }),
         .request 2 none false, .request 3 none false])[1]?
    ∧ (runSched rrStart
        [.request 1 none false,
         .complete 0 (.ok { statusCode := 200, leaderEndpoint := none }),
         .request 2 none false, .request 3 none false]).conn.activeHost = 1 := by
  have h := rr_rotation 2 rrStart
    [.request 1 none false,
     .complete 0 (.ok { statusCode := 200, leaderEndpoint := none }),
     .request 2 none false, .request 3 none false]
    rfl rfl (by decide) (by decide)
  refine ⟨?_, ?_, ?_, ?_, ?_⟩
  · rw [h.1 0 (by decide)]
    decide
  · rw [h.1 1 (by decide)]
    decide
  · rw [h.1 2 (by decide)]
    decide
  · exact h.2.1 0 1 (by decide) (by decide) (by decide)
  · rw [h.2.2.2.1]
    decide

/-- C5 counterexample: under ROUND_ROBIN with 2 hosts, a leader-redirect
    completion between dispatches rewrites the cursor, after which two
    consecutive dispatches of non-dirty, non-pinned tasks (ids 2 and 3) both
    target host 1 — N consecutive such dispatches are NOT always pairwise
    distinct as the claim states.  (Task 1 was redirected and re-dispatched
    pinned to host 1 in between.) -/
theorem rr_rotation_broken_by_redirect :
    rrConn.hostsLen = 2
    ∧ rrRedirectRun.inflight =
        [⟨plainTask 2, 1⟩, ⟨{ plainTask 1 with host := some 1 }, 1⟩,
         ⟨plainTask 3, 1⟩]
    ∧ rrRedirectRun.events = [] := by
  decide

/-- C7: a dirty-read-eligible (non-pinned) task is dispatched to the dirty
    cursor's current value, which advances by 1 mod pool size while the
    non-dirty active cursor stays put; and on error a dirty-read task never
    advances the active (failover) cursor — any error-path cursor advance
    implies the task was non-dirty. -/
theorem dirty_read_cursor_independence (c : ConnState) (t : Task)
    (rest : List Task) (hq : c.queue = t :: rest)
    (hcap : c.activeTasks < c.maxTasks) (hd : t.allowDirtyRead = true)
    (hh : t.host = none) :
    (runQueue c).2 = some ⟨t, c.activeDirtyHost⟩
    ∧ (runQueue c).1.activeDirtyHost = (c.activeDirtyHost + 1) % c.hostsLen
    ∧ (runQueue c).1.activeHost = c.activeHost
    ∧ (∀ (c' : ConnState) (t' : Task) (h' : Nat) (e' : JsErr),
        t'.allowDirtyRead = true →
          (completeErr c' t' h' e').1.activeHost = c'.activeHost)
    ∧ (∀ (c' : ConnState) (t' : Task) (h' : Nat) (e' : JsErr),
        (completeErr c' t' h' e').1.activeHost ≠ c'.activeHost →
          t'.allowDirtyRead = false) := by
  have hcu : cursorUpdate c t =
      { c with activeDirtyHost := (c.activeDirtyHost + 1) % c.hostsLen } := by
    unfold cursorUpdate
    rw [if_pos ⟨hh, hd⟩]
  have hdh : dispatchHost c t = c.activeDirtyHost := by
    unfold dispatchHost
    rw [hh]
    simp [hd]
  have herrs : ∀ (c' : ConnState) (t' : Task) (h' : Nat) (e' : JsErr),
      t'.allowDirtyRead = true →
        (completeErr c' t' h' e').1.activeHost = c'.activeHost := by
    intro c' t' h' e' hd'
    rw [completeErr_activeHost, failoverUpdate_activeHost]
    rw [if_neg (by
      rintro ⟨hfalse, -⟩
      rw [hd'] at hfalse
      exact Bool.noConfusion hfalse)]
  refine ⟨?_, ?_, ?_, herrs, ?_⟩
  · rw [(runQueue_dispatch c t rest hq hcap), hdh]
  · rw [runQueue_dispatch c t rest hq hcap, hcu]
  · rw [runQueue_dispatch c t rest hq hcap, hcu]
  · intro c' t' h' e' hne
    cases hd' : t'.allowDirtyRead
    · rfl
    · exact absurd (herrs c' t' h' e' hd') hne

/-- C8: `addToHostList` normalizes each URL (scheme aliasing and unix-socket
    collapsing, illustrated on the canonical forms below), never re-adds a
    URL whose normalized form is pooled (appending — with a transport each —
    exactly the normalized inputs absent from the pool at call time), returns
    in input order the (first) pool index of every input URL, reusing the
    existing index for known URLs including scheme-alias variants, and is
    idempotent: immediately repeating a call changes nothing and returns the
    same indices.  The pool only ever grows. -/
theorem addToHostList_idempotent_stable (c : ConnState) (inUrls : List String) :
    ((addToHostList c inUrls).1.urls
      = c.urls ++ (inUrls.map normalizeUrl).filter (fun u => decide (u ∉ c.urls)))
    ∧ ((addToHostList c inUrls).1.hostsLen
      = c.hostsLen
        + ((inUrls.map normalizeUrl).filter (fun u => decide (u ∉ c.urls))).length)
    ∧ (∀ u, u ∈ inUrls → normalizeUrl u ∈ c.urls →
        jsIndexOf (addToHostList c inUrls).1.urls (normalizeUrl u)
          = jsIndexOf c.urls (normalizeUrl u))
    ∧ ((addToHostList c inUrls).2
      = inUrls.map (fun u =>
          jsIndexOf (addToHostList c inUrls).1.urls (normalizeUrl u)))
    ∧ (addToHostList (addToHostList c inUrls).1 inUrls = addToHostList c inUrls)
    ∧ normalizeUrl "tcp://x" = "http://x"
    ∧ normalizeUrl "ssl://x" = "https://x"
    ∧ normalizeUrl "tls://x" = "https://x"
    ∧ normalizeUrl "unix:///a/b" = "http://unix:/a/b"
    ∧ normalizeUrl "http+unix:///a/b" = "http://unix:/a/b"
    ∧ normalizeUrl "https+unix:///a/b" = "https://unix:/a/b" := by
  have hfilter : (inUrls.map normalizeUrl).filter
      (fun u => decide (jsIndexOf c.urls u = c.urls.length))
      = (inUrls.map normalizeUrl).filter (fun u => decide (u ∉ c.urls)) := by
    apply List.filter_congr
    intro u _
    simp [jsIndexOf_eq_length_iff]
  have hurls : (addToHostList c inUrls).1.urls
      = c.urls ++ (inUrls.map normalizeUrl).filter (fun u => decide (u ∉ c.urls)) := by
    simp only [addToHostList]
    rw [hfilter]
  have hlen : (addToHostList c inUrls).1.hostsLen
      = c.hostsLen
        + ((inUrls.map normalizeUrl).filter (fun u => decide (u ∉ c.urls))).length := by
    simp only [addToHostList]
    rw [hfilter]
  have hstable : ∀ u, u ∈ inUrls → normalizeUrl u ∈ c.urls →
      jsIndexOf (addToHostList c inUrls).1.urls (normalizeUrl u)
        = jsIndexOf c.urls (normalizeUrl u) := by
    intro u _ hmem
    rw [hurls]
    exact jsIndexOf_append_left _ _ _ hmem
  have hridx : (addToHostList c inUrls).2
      = inUrls.map (fun u =>
          jsIndexOf (addToHostList c inUrls).1.urls (normalizeUrl u)) := by
    simp only [addToHostList, List.map_map]
    rfl
  have hmem2 : ∀ u ∈ inUrls.map normalizeUrl,
      u ∈ (addToHostList c inUrls).1.urls := by
    intro u hu
    rw [hurls]
    by_cases hin : u ∈ c.urls
    · exact List.mem_append_left _ hin
    · refine List.mem_append_right _ ?_
      rw [List.mem_filter]
      exact ⟨hu, by simpa using hin⟩
  refine ⟨hurls, hlen, hstable, hridx, ?_, by decide, by decide, by decide,
    by decide, by decide, by decide⟩
  rw [addToHostList_absorbed _ inUrls hmem2]
  refine Prod.ext rfl ?_
  show (inUrls.map normalizeUrl).map
      (fun u => jsIndexOf (addToHostList c inUrls).1.urls u)
    = (addToHostList c inUrls).2
  rw [hridx, List.map_map]
  rfl

/-- C8 witness: re-adding a known URL through its `tcp` scheme alias keeps
    its index and repeating a whole call is a no-op. -/
theorem addToHostList_idempotent_stable_witness :
    jsIndexOf (addToHostList twoHostConn ["tcp://h0", "http://h9"]).1.urls
        (normalizeUrl "tcp://h0") = jsIndexOf twoHostConn.urls (normalizeUrl "tcp://h0")
    ∧ addToHostList (addToHostList twoHostConn ["tcp://h0", "http://h9"]).1
        ["tcp://h0", "http://h9"]
      = addToHostList twoHostConn ["tcp://h0", "http://h9"] := by
  have h := addToHostList_idempotent_stable twoHostConn ["tcp://h0", "http://h9"]
  exact ⟨h.2.2.1 "tcp://h0" (by simp) (by decide), h.2.2.2.2.1⟩

/-- C7 witness: dispatching the queued dirty task on the two-host
    connection. -/
theorem dirty_read_cursor_independence_witness :
    (runQueue dirtyQueueConn).2 = some ⟨dirtyTask 6, 0⟩
    ∧ (runQueue dirtyQueueConn).1.activeDirtyHost = 1
    ∧ (runQueue dirtyQueueConn).1.activeHost = 0 := by
  have h := dirty_read_cursor_independence dirtyQueueConn (dirtyTask 6) []
    rfl (by decide) rfl rfl
  exact ⟨h.1, by rw [h.2.1]; decide, by rw [h.2.2.1]; decide⟩

/-- C6: for a completed non-redirect response with a successfully parsed
    body, the classification is: a body owning the four envelope fields
    (semantically: a JSON object possessing `error`, `code`, `errorMessage`
    and `errorNum`) rejects with the application-error kind carrying the
    envelope's `errorNum` and `errorMessage` (and `code`); otherwise a
    status >= 400 rejects with the distinct generic-HTTP-error kind carrying
    that status; otherwise the promise resolves with `transform(response)`,
    or the raw response when no transform was given. -/
theorem response_classification {α : Type} (res : RawResponse)
    (transform : Option (RawResponse → α)) :
    (isArangoErrorResponse res.body = true ↔
      ∃ fields, res.body = .obj fields
        ∧ (∃ v, ("error", v) ∈ fields) ∧ (∃ v, ("code", v) ∈ fields)
        ∧ (∃ v, ("errorMessage", v) ∈ fields) ∧ (∃ v, ("errorNum", v) ∈ fields))
    ∧ (isArangoErrorResponse res.body = true →
        taskResolve res transform =
          .rejectedArango (getProp res.body "errorNum")
            (getProp res.body "errorMessage") (getProp res.body "code"))
    ∧ (isArangoErrorResponse res.body = false → 400 ≤ res.statusCode →
        taskResolve res transform = .rejectedHttp res.statusCode)
    ∧ (isArangoErrorResponse res.body = false → res.statusCode < 400 →
        taskResolve res transform = match transform with
          | some f => .resolvedTransformed (f res)
          | none => .resolvedRaw res) := by
  refine ⟨isArangoErrorResponse_iff res.body, ?_, ?_, ?_⟩
  · intro h
    unfold taskResolve
    rw [if_pos h]
  · intro h hs
    unfold taskResolve
    rw [if_neg (by simp [h]), if_pos ⟨by omega, hs⟩, if_neg (by omega)]
  · intro h hs
    unfold taskResolve
    rw [if_neg (by simp [h]), if_neg (by omega)]

/-- C6 witness: a 404 without the envelope rejects with HTTP error 404. -/
theorem response_classification_witness :
    taskResolve { statusCode := 404, body := .strV "nope" }
      (none : Option (RawResponse → Unit)) = .rejectedHttp 404 :=
  (response_classification { statusCode := 404, body := .strV "nope" }
    (none : Option (RawResponse → Unit))).2.2.1 (by rfl) (by decide)

/-- C9: bookkeeping conservation — a promise id issued exactly once and
    absent from the start state sits in exactly one place forever, so at
    most one caller-visible outcome is ever logged for it ("never both"),
    and in any quiescent reachable state (empty queue, no in-flight
    callbacks — i.e. every transport invocation has called back and queued
    work was drained) exactly one outcome has been logged ("never dropped"),
    across arbitrarily many transparent retries and leader redirects.  The
    resolve wrapper itself maps each scheduler outcome to exactly one caller
    continuation (it is a function; see `taskResolve`). -/
theorem exactly_once_resolution (s0 s : SchedState) (ids : List Nat) (id : Nat)
    (htr : Trace s0 ids s) (hfresh : idCount s0 id = 0)
    (honce : ids.count id = 1) :
    eventCount s id ≤ 1
    ∧ (s.conn.queue = [] → s.inflight = [] → eventCount s id = 1) := by
  have h := trace_idCount s0 s ids htr id
  rw [hfresh, honce] at h
  unfold idCount at h
  refine ⟨by omega, ?_⟩
  intro hq hf
  rw [hq, hf] at h
  simp [qCount, fCount] at h
  omega

/-- C9 witness: one request, one successful completion. -/
theorem exactly_once_resolution_witness :
    eventCount (doComplete (doRequest oneHostStart 5 none false) 0
      (.ok { statusCode := 200, leaderEndpoint := none })) 5 ≤ 1
    ∧ ((doComplete (doRequest oneHostStart 5 none false) 0
          (.ok { statusCode := 200, leaderEndpoint := none })).conn.queue = [] →
        (doComplete (doRequest oneHostStart 5 none false) 0
          (.ok { statusCode := 200, leaderEndpoint := none })).inflight = [] →
        eventCount (doComplete (doRequest oneHostStart 5 none false) 0
          (.ok { statusCode := 200, leaderEndpoint := none })) 5 = 1) :=
  exactly_once_resolution oneHostStart _ [5] 5
    (Trace.complete 0 (.ok { statusCode := 200, leaderEndpoint := none })
      (Trace.request 5 none false (Trace.refl oneHostStart)))
    (by decide) (by decide)

/-- C10 (implicit): the envelope check runs before, and independently of,
    the HTTP status check, and it never reads the status code or the value
    of the body's `error` flag — a body owning all four fields rejects as an
    application error even with a success status (200) and `error: false`;
    conversely a generic-HTTP-error rejection is only reachable for bodies
    that do not match the envelope shape. -/
theorem envelope_check_precedence {α : Type} (res : RawResponse)
    (transform : Option (RawResponse → α)) :
    (isArangoErrorResponse res.body = true →
      taskResolve res transform =
        .rejectedArango (getProp res.body "errorNum")
          (getProp res.body "errorMessage") (getProp res.body "code"))
    ∧ (∀ code, taskResolve res transform = .rejectedHttp code →
        isArangoErrorResponse res.body = false)
    ∧ isArangoErrorResponse (.obj [("error", .boolV false), ("code", .numV 200),
        ("errorMessage", .strV "x"), ("errorNum", .numV 0)]) = true
    ∧ taskResolve
        { statusCode := 200,
          body := .obj [("error", .boolV false), ("code", .numV 200),
            ("errorMessage", .strV "x"), ("errorNum", .numV 0)] } transform
        = .rejectedArango (.numV 0) (.strV "x") (.numV 200) := by
  refine ⟨?_, ?_, by rfl, ?_⟩
  · intro h
    unfold taskResolve
    rw [if_pos h]
  · intro code hc
    cases hb : isArangoErrorResponse res.body
    · rfl
    · exfalso
      unfold taskResolve at hc
      rw [if_pos hb] at hc
      exact TaskOutcome.noConfusion hc
  · unfold taskResolve
    rw [if_pos (by rfl)]
    rfl

/-- C10 witness: a body with the four envelope fields and a 1xx status still
    rejects as an application error carrying the envelope values. -/
theorem envelope_check_precedence_witness :
    taskResolve
      { statusCode := 100,
        body := .obj [("error", .boolV true), ("code", .numV 1),
          ("errorMessage", .strV "m"), ("errorNum", .numV 42)] }
      (none : Option (RawResponse → Unit))
      = .rejectedArango (.numV 42) (.strV "m") (.numV 1) :=
  (envelope_check_precedence
    { statusCode := 100,
      body := .obj [("error", .boolV true), ("code", .numV 1),
        ("errorMessage", .strV "m"), ("errorNum", .numV 42)] }
    (none : Option (RawResponse → Unit))).1 (by rfl)

end ArangojsConn
